import Mathlib

/-!
Verification development for the real-time capacitive-sensing pipeline of
the Real_Capacitive_Sensing repository.  The Python sources are shallowly
embedded: floats are modelled as exact rationals, raw readings as integers,
Python dicts as association lists, bounded deques as lists with an explicit
truncation on push, and the stateful per-cell pipeline as a pure
state-transition function.
-/

namespace CapSense

/-- Append to a Python `deque(maxlen = w)`: push the value on the right and
drop elements from the left until at most `w` remain. -/
def pushDeque {α : Type} (w : ℕ) (buf : List α) (v : α) : List α :=
  let l2 := buf ++ [v]
  if w < l2.length then l2.drop (l2.length - w) else l2

/-- Assignment `d[k] = v` on a Python dict modelled as an association list:
an existing key keeps its position and gets the new value, a missing key is
appended at the end. -/
def dictInsert {κ ν : Type} [DecidableEq κ] (k : κ) (v : ν) :
    List (κ × ν) → List (κ × ν)
  | [] => [(k, v)]
  | e :: rest => if e.1 = k then (k, v) :: rest else e :: dictInsert k v rest

/-! ## NodeTracker: `CellPipeline` from `realtime_8by8/test/cell_pipeline.py` -/

/-- Configuration of a per-cell pipeline, mirroring the keyword arguments of
`CellPipeline.__init__` in `realtime_8by8/test/cell_pipeline.py` with their
source defaults. -/
structure CellConfig where
  alpha_baseline : ℚ := 1/2000
  press_dip : ℤ := 50000
  release_band : ℤ := 20000
  window : ℕ := 5
  delta_decay : ℚ := 1/10
  deriving Repr, DecidableEq

/-- Mutable state of one `CellPipeline` instance: `baseline`, `delta`,
`is_touched` and the bounded deque `press_buf` (most recent element last). -/
structure CellState where
  baseline : Option ℚ
  delta : ℚ
  is_touched : Bool
  press_buf : List ℤ
  deriving Repr, DecidableEq

/-- State produced by `CellPipeline.__init__` / `CellPipeline.reset`. -/
def CellState.reset : CellState :=
  { baseline := none, delta := 0, is_touched := false, press_buf := [] }

/-- Python `abs` on a rational. -/
def pyAbs (q : ℚ) : ℚ := if q < 0 then -q else q

/-- The value `prev_val` read in `CellPipeline.feed`: `press_buf[-2]` when the
deque (after the push) holds more than one element, else the current value. -/
def prevOf (buf : List ℤ) (val : ℤ) : ℤ :=
  if 1 < buf.length then buf.getD (buf.length - 2) 0 else val

/-- Touch-onset check of `CellPipeline.feed` (cell_pipeline.py line 65):
while untouched, a drop from the previous value exceeding `press_dip`
switches the touched flag on. -/
def touchOnset (cfg : CellConfig) (touched : Bool) (prev val : ℤ) : Bool :=
  if touched = false ∧ cfg.press_dip < prev - val then true else touched

/-- Release check of `CellPipeline.feed` (cell_pipeline.py line 69): while
touched, a value within `release_band` of the baseline switches the touched
flag off. -/
def releaseCheck (cfg : CellConfig) (touched : Bool) (b0 : ℚ) (val : ℤ) : Bool :=
  if touched = true ∧ pyAbs (b0 - (val : ℚ)) < (cfg.release_band : ℚ) then false else touched

/-- Baseline update of `CellPipeline.feed` (cell_pipeline.py lines 73-82):
only while untouched, exponential moving average toward the current value,
with a sanity snap to the raw value if the average leaves
`[val/20, val*20]`. -/
def baselineUpdate (cfg : CellConfig) (touched2 : Bool) (b0 : ℚ) (val : ℤ) : ℚ :=
  if touched2 = false then
    let bema := (1 - cfg.alpha_baseline) * b0 + cfg.alpha_baseline * (val : ℚ)
    if bema < (val : ℚ) / 20 ∨ (val : ℚ) * 20 < bema then (val : ℚ) else bema
  else b0

/-- Delta update of `CellPipeline.feed` (cell_pipeline.py lines 85-96):
decay toward zero with a snap below magnitude 1 while untouched,
`baseline - val` while touched, then a clamp of negative values to zero. -/
def deltaUpdate (cfg : CellConfig) (touched2 : Bool) (delta0 b1 : ℚ) (val : ℤ) : ℚ :=
  let d1 :=
    if touched2 = false then
      let dd := delta0 * (1 - cfg.delta_decay)
      if pyAbs dd < 1 then 0 else dd
    else b1 - (val : ℚ)
  if d1 < 0 then 0 else d1

/-- One call of `CellPipeline.feed` (cell_pipeline.py lines 42-98), returning
the successor state together with the returned `(delta, is_touched)` pair.
The first-ever sample only sets the baseline and returns `(0.0, False)`. -/
def feed (cfg : CellConfig) (s : CellState) (val : ℤ) : CellState × (ℚ × Bool) :=
  let buf := pushDeque cfg.window s.press_buf val
  match s.baseline with
  | none =>
      ({ s with baseline := some (val : ℚ), press_buf := buf }, (0, false))
  | some b0 =>
      let touched2 := releaseCheck cfg (touchOnset cfg s.is_touched (prevOf buf val) val) b0 val
      let b1 := baselineUpdate cfg touched2 b0 val
      let d2 := deltaUpdate cfg touched2 s.delta b1 val
      ({ baseline := some b1, delta := d2, is_touched := touched2, press_buf := buf },
       (d2, touched2))

/-- State component of `feed`. -/
def feedState (cfg : CellConfig) (s : CellState) (val : ℤ) : CellState :=
  (feed cfg s val).1

/-- State after feeding a whole list of raw readings in order. -/
def stateAfter (cfg : CellConfig) (s : CellState) (vs : List ℤ) : CellState :=
  vs.foldl (feedState cfg) s

/-- Sequence of `(delta, is_touched)` pairs returned while feeding a list of
raw readings in order. -/
def feedSteps (cfg : CellConfig) : CellState → List ℤ → List (ℚ × Bool)
  | _, [] => []
  | s, v :: vs => (feed cfg s v).2 :: feedSteps cfg (feedState cfg s v) vs

/-- Configuration of Scenario A of the specification. -/
def scenarioACfg : CellConfig :=
  { alpha_baseline := 1/50, press_dip := 50, release_band := 15,
    window := 5, delta_decay := 1/10 }

/-- Raw input sequence of Scenario A. -/
def scenarioAInput : List ℤ := [1000, 1000, 1000, 1000, 900, 800, 810, 805, 800, 800]

/-! ## Median and baseline calibration -/

/-- Insert into a sorted list, keeping it sorted (ascending). -/
def insertSorted (x : ℤ) : List ℤ → List ℤ
  | [] => [x]
  | y :: ys => if x ≤ y then x :: y :: ys else y :: insertSorted x ys

/-- Insertion sort, ascending. -/
def sortAsc (l : List ℤ) : List ℤ := l.foldr insertSorted []

/-- Median of a list of integer readings as computed by `np.median`: the
middle element of the sorted list for odd length, the mean of the two middle
elements for even length. -/
def npMedian (l : List ℤ) : ℚ :=
  let s := sortAsc l
  let n := s.length
  if n = 0 then 0
  else if n % 2 = 1 then ((s.getD (n / 2) 0 : ℤ) : ℚ)
  else (((s.getD (n / 2 - 1) 0 : ℤ) : ℚ) + ((s.getD (n / 2) 0 : ℤ) : ℚ)) / 2

/-- Per-column idle baseline of `NOVA_pipeline/novasense rev3/adaptive4read2.py`
(lines 50-57): `col_idle[col] = float(np.median(idle))` over the samples
accumulated for that column. -/
def colIdle (idle : List ℤ) : ℚ := npMedian idle

/-- The per-node `C0` produced by `establish_baseline` in
`node_processing/real_serial_read_diff.py` (lines 160-185): once enough
frames are collected, `np.mean` of the per-node history over the collected
frames (`baseline_avg = np.mean(baseline_array, axis=0)`). -/
def establishBaselineC0 (history : List (ℕ → ℕ → ℚ)) (r c : ℕ) : ℚ :=
  (history.map (fun g => g r c)).sum / history.length

/-! ## FrameAssembler: the frame logic of `reader_thread_func` in
`node_processing/real_serial_read_diff.py` (lines 501-519) -/

/-- Frame-assembly state: the in-progress `frame_buffer` dict, the
`completed_frames` deque (`maxlen=10`), and the `frames_completed` counter. -/
structure AsmState where
  frame_buffer : List ((ℕ × ℕ) × ℤ)
  completed : List (List ((ℕ × ℕ) × ℤ))
  frames_completed : ℕ
  deriving Repr, DecidableEq

/-- Initial frame-assembly state. -/
def AsmState.init : AsmState := { frame_buffer := [], completed := [], frames_completed := 0 }

/-- One copy of the publish-check-then-insert block of `reader_thread_func`:
if the sample is for node `(0,0)` and the in-progress buffer already holds
at least `total` entries, the buffer is published as a completed frame and
cleared; then the sample is stored into the buffer.  This block appears
twice in `real_serial_read_diff.py`: once inside the `try` (lines 501-519)
and once more as a duplicated block after the `except` handlers (lines
547-564), and both copies run on every valid sample. -/
def asmStep (total : ℕ) (s : AsmState) (sample : (ℕ × ℕ) × ℤ) : AsmState :=
  let s1 :=
    if sample.1 = ((0, 0) : ℕ × ℕ) ∧ total ≤ s.frame_buffer.length then
      { frame_buffer := [],
        completed := pushDeque 10 s.completed s.frame_buffer,
        frames_completed := s.frames_completed + 1 }
    else s
  { s1 with frame_buffer := dictInsert sample.1 sample.2 s1.frame_buffer }

/-- Frame assembly over a whole sample stream with a single
publish-check-then-insert pass per sample. -/
def asmRun (total : ℕ) (s : AsmState) (l : List ((ℕ × ℕ) × ℤ)) : AsmState :=
  l.foldl (asmStep total) s

/-- Full processing of one valid sample by `reader_thread_func` in
`real_serial_read_diff.py`: the publish-check-then-insert block runs twice,
once at lines 501-519 inside the `try` and once more as the duplicated
block at lines 547-564 that executes on every valid sample. -/
def readerStep (total : ℕ) (s : AsmState) (sample : (ℕ × ℕ) × ℤ) : AsmState :=
  asmStep total (asmStep total s sample) sample

/-- Frame assembly over a whole sample stream as actually performed by the
reader loop, with both duplicated passes per sample. -/
def readerRun (total : ℕ) (s : AsmState) (l : List ((ℕ × ℕ) × ℤ)) : AsmState :=
  l.foldl (readerStep total) s

/-- Node keys of an `R×C` grid in raster-scan order. -/
def rasterKeys (R C : ℕ) : List (ℕ × ℕ) :=
  (List.range R).flatMap (fun r => (List.range C).map (fun c => (r, c)))

/-- One sample per node of an `R×C` grid, in raster-scan order, with values
given by `f`. -/
def rasterSamples (R C : ℕ) (f : ℕ × ℕ → ℤ) : List ((ℕ × ℕ) × ℤ) :=
  (rasterKeys R C).map (fun k => (k, f k))

/-! ## CSV queue backpressure: `reader_thread_func` in
`node_processing/real_serial_read_diff.py` (lines 521-530) -/

/-- A `queue.Queue(maxsize)` push with bounded timeout (`put(sample,
timeout=0.1)`): `maxsize = 0` means unbounded (the source constructs
`queue.Queue()`, hence unbounded); on a full bounded queue the element is
rejected (`queue.Full`) and the queue is unchanged.  The Boolean reports
whether the element was enqueued. -/
def putTimeout {α : Type} (maxsize : ℕ) (q : List α) (x : α) : List α × Bool :=
  if maxsize = 0 ∨ q.length < maxsize then (q ++ [x], true) else (q, false)

/-- Reader-side statistics of `real_serial_read_diff.py` that are updated in
the per-sample path after the CSV push (lines 521-530): the `except
queue.Full` handler only prints a warning, and `samples_received` is
incremented either way.  No field counts dropped samples. -/
structure ReaderStats where
  samples_received : ℕ
  frames_completed : ℕ
  invalid_samples : ℕ
  deriving Repr, DecidableEq

/-- Statistics update after the CSV push attempt: `samples_received += 1`,
whether or not the push was accepted (`real_serial_read_diff.py` lines
523-530). -/
def recordAfterPut (st : ReaderStats) (accepted : Bool) : ReaderStats :=
  { st with samples_received := st.samples_received + 1 }

/-! ## DeltaNormalizer: `compute_delta_c_normalized` in
`node_processing/real_serial_read_diff.py` (lines 188-212) -/

/-- One node of `compute_delta_c_normalized`: zeros when the baseline is not
ready or the baseline table is empty; otherwise `c0 = baseline_c0.get((r,c),
c_current)` and `(c_current - c0) / c0` when `c0 > 0`, else `0.0`. -/
def computeDeltaCNormalized (ready : Bool) (table : List ((ℕ × ℕ) × ℚ))
    (frame : ℕ → ℕ → ℚ) (r c : ℕ) : ℚ :=
  if ready = false ∨ table.length = 0 then 0
  else
    let ccur := frame r c
    let c0 := (table.lookup (r, c)).getD ccur
    if 0 < c0 then (ccur - c0) / c0 else 0

/-! ## GridRouter: `GridManager` in `NOVA_pipeline/grid_manager.py` and the
patched variant `realtime_8by8/test/grid_manager4x4.py` -/

/-- State of a `GridManager`: declared dimensions and the `_cells` dict,
mapping integer `(row, col)` keys to a per-cell configuration and state. -/
structure GridState where
  rows : ℕ
  cols : ℕ
  cells : List ((ℤ × ℤ) × (CellConfig × CellState))
  deriving Repr, DecidableEq

/-- The `GridManager.__init__` of both variants: pre-create one cell per
`(r, c)` with `r < rows`, `c < cols`, configured by the given kwargs. -/
def GridState.init (rows cols : ℕ) (cfg : CellConfig) : GridState :=
  { rows := rows, cols := cols,
    cells := (rasterKeys rows cols).map
      (fun k => (((k.1 : ℤ), (k.2 : ℤ)), (cfg, CellState.reset))) }

/-- The `_get_cell` of `NOVA_pipeline/grid_manager.py` (lines 34-39): a
missing key is lazily populated with a default-configured `CellPipeline()`
before the lookup result is returned. -/
def getCellNova (g : GridState) (r c : ℤ) : GridState × (CellConfig × CellState) :=
  match g.cells.lookup (r, c) with
  | some cell => (g, cell)
  | none =>
      let fresh : CellConfig × CellState := ({}, CellState.reset)
      ({ g with cells := dictInsert (r, c) fresh g.cells }, fresh)

/-- The `GridManager.feed` of `NOVA_pipeline/grid_manager.py` (lines 41-49):
route the reading to the (possibly lazily created) cell, run its `feed`, and
store the updated cell state back. -/
def feedNova (g : GridState) (r c : ℤ) (v : ℤ) : GridState × (ℚ × Bool) :=
  let gc := getCellNova g r c
  let out := feed gc.2.1 gc.2.2 v
  ({ gc.1 with cells := dictInsert (r, c) (gc.2.1, out.1) gc.1.cells }, out.2)

/-- The `_get_cell` of `realtime_8by8/test/grid_manager4x4.py` (lines 30-35):
the lazy-create branch assigns to `self.cells`, an attribute that does not
exist (the dict is `self._cells`), so a missing key raises
`AttributeError`. -/
def getCell4x4 (g : GridState) (r c : ℤ) : Except String (CellConfig × CellState) :=
  match g.cells.lookup (r, c) with
  | some cell => Except.ok cell
  | none => Except.error "AttributeError: no attribute cells"

/-- The `GridManager.feed` of `realtime_8by8/test/grid_manager4x4.py` (lines
37-42), propagating the `AttributeError` of `_get_cell` on a key outside the
pre-created grid. -/
def feed4x4 (g : GridState) (r c : ℤ) (v : ℤ) :
    Except String (GridState × (ℚ × Bool)) :=
  match getCell4x4 g r c with
  | Except.error e => Except.error e
  | Except.ok cell =>
      Except.ok ({ g with cells := dictInsert (r, c) (cell.1, (feed cell.1 cell.2 v).1) g.cells },
                 (feed cell.1 cell.2 v).2)

end CapSense

namespace CapSense

/-! ## Theorems -/

/-- Helper: a feed call that starts touched and is still touched after its
release check leaves the baseline unchanged. -/
lemma feed_touched_baseline_eq (cfg : CellConfig) (s : CellState) (v : ℤ) (b0 : ℚ)
    (hb : s.baseline = some b0) (h1 : s.is_touched = true)
    (h2 : (feedState cfg s v).is_touched = true) :
    (feedState cfg s v).baseline = s.baseline := by
  simp only [feedState, feed, hb] at h2 ⊢
  rw [h2]
  simp [baselineUpdate]

/-- Helper: one list step of `stateAfter`. -/
lemma stateAfter_cons (cfg : CellConfig) (s : CellState) (v : ℤ) (vs : List ℤ) :
    stateAfter cfg s (v :: vs) = stateAfter cfg (feedState cfg s v) vs := by
  simp [stateAfter]

/-- C2: a feed call on a tracker that is touched at entry and still touched
at its release check leaves `baseline` unchanged; hence across any number of
consecutive feed calls during which the tracker stays touched, the baseline
is constant. -/
theorem baseline_frozen_while_touched :
    (∀ (cfg : CellConfig) (s : CellState) (v : ℤ) (b0 : ℚ),
        s.baseline = some b0 → s.is_touched = true →
        (feedState cfg s v).is_touched = true →
        (feedState cfg s v).baseline = s.baseline)
    ∧
    (∀ (cfg : CellConfig) (s : CellState) (vs : List ℤ),
        s.baseline.isSome → s.is_touched = true →
        (∀ k, k ≤ vs.length → (stateAfter cfg s (vs.take k)).is_touched = true) →
        (stateAfter cfg s vs).baseline = s.baseline) := by
  constructor
  · exact feed_touched_baseline_eq
  · intro cfg s vs
    induction vs generalizing s with
    | nil => intro _ _ _; simp [stateAfter]
    | cons v tl ih =>
      intro hsome htouch hall
      obtain ⟨b0, hb⟩ := Option.isSome_iff_exists.mp hsome
      have h1 : (feedState cfg s v).is_touched = true := by
        have h := hall 1 (by simp)
        simpa [stateAfter] using h
      have hbase : (feedState cfg s v).baseline = s.baseline :=
        feed_touched_baseline_eq cfg s v b0 hb htouch h1
      have hrec : (stateAfter cfg (feedState cfg s v) tl).baseline =
          (feedState cfg s v).baseline := by
        apply ih
        · rw [hbase]; exact hsome
        · exact h1
        · intro k hk
          have h := hall (k + 1) (by simpa using Nat.succ_le_succ hk)
          simpa [stateAfter] using h
      rw [stateAfter_cons, hrec, hbase]

/-- Witness for C2: a concrete touched tracker stays touched across two feed
calls and its baseline is unchanged. -/
theorem baseline_frozen_while_touched_witness :
    (stateAfter scenarioACfg
        { baseline := some 1000, delta := 100, is_touched := true, press_buf := [900] }
        [900, 910]).baseline =
      ({ baseline := some 1000, delta := 100, is_touched := true, press_buf := [900] } :
        CellState).baseline := by
  apply baseline_frozen_while_touched.2 scenarioACfg _ [900, 910] (by simp) rfl
  intro k hk
  have hk2 : k ≤ 2 := by simpa using hk
  interval_cases k <;>
    norm_num [stateAfter, feedState, feed, releaseCheck, touchOnset, prevOf,
      pushDeque, pyAbs, baselineUpdate, deltaUpdate, scenarioACfg]

/-- C1: with `press_dip_threshold=50`, `release_band=15`, `alpha=0.02`, the
raw sequence `[1000,1000,1000,1000,900,800,810,805,800,800]` makes
`is_touched` become true exactly on the 5th sample and stay true through the
10th. -/
theorem scenarioA_touch_trace :
    (feedSteps scenarioACfg CellState.reset scenarioAInput).map Prod.snd =
      [false, false, false, false, true, true, true, true, true, true] := by
  norm_num [feedSteps, feed, feedState, pushDeque, prevOf, touchOnset,
    releaseCheck, baselineUpdate, deltaUpdate, pyAbs, CellState.reset,
    scenarioACfg, scenarioAInput]

end CapSense

namespace CapSense

/-- Helper: pushing the constant onto an all-constant deque keeps it
all-constant. -/
lemma pushDeque_all {v : ℤ} {w : ℕ} {buf : List ℤ} (h : ∀ x ∈ buf, x = v) :
    ∀ x ∈ pushDeque w buf v, x = v := by
  intro x hx
  unfold pushDeque at hx
  simp only at hx
  split at hx
  · have hx2 := List.mem_of_mem_drop hx
    rcases List.mem_append.mp hx2 with h1 | h1
    · exact h x h1
    · simpa using h1
  · rcases List.mem_append.mp hx with h1 | h1
    · exact h x h1
    · simpa using h1

/-- Helper: the previous-value read on an all-constant deque returns the
constant. -/
lemma prevOf_const {v : ℤ} {buf : List ℤ} (h : ∀ x ∈ buf, x = v) :
    prevOf buf v = v := by
  unfold prevOf
  split
  · next h1 =>
    apply h
    have hlt : buf.length - 2 < buf.length := by omega
    rw [List.getD_eq_getElem?_getD, List.getElem?_eq_getElem hlt]
    simpa using List.getElem_mem hlt
  · rfl

/-- Helper: the untouched-branch EMA of the baseline at the constant input is
a fixed point. -/
lemma baselineUpdate_const (cfg : CellConfig) (v : ℤ) :
    baselineUpdate cfg false (v : ℚ) v = (v : ℚ) := by
  have h : (1 - cfg.alpha_baseline) * (v : ℚ) + cfg.alpha_baseline * (v : ℚ) = (v : ℚ) := by
    ring
  simp [baselineUpdate, h]

/-- Helper: the untouched-branch decay of a zero delta stays zero. -/
lemma deltaUpdate_zero (cfg : CellConfig) (b1 : ℚ) (v : ℤ) :
    deltaUpdate cfg false 0 b1 v = 0 := by
  simp [deltaUpdate, pyAbs]

/-- Helper: one feed of the constant input on a calm constant-history state
returns `(0, false)` and preserves the calm state shape. -/
lemma feed_const (cfg : CellConfig) (v : ℤ) (s : CellState)
    (hdip : 0 ≤ cfg.press_dip) (hb : s.baseline = some (v : ℚ)) (hd : s.delta = 0)
    (ht : s.is_touched = false) (hbuf : ∀ x ∈ s.press_buf, x = v) :
    feed cfg s v =
      ({ baseline := some (v : ℚ), delta := 0, is_touched := false,
         press_buf := pushDeque cfg.window s.press_buf v }, (0, false)) := by
  have hprev : prevOf (pushDeque cfg.window s.press_buf v) v = v :=
    prevOf_const (pushDeque_all hbuf)
  have htouch : touchOnset cfg false v v = false := by
    have h0 : ¬ cfg.press_dip < 0 := by omega
    simp only [touchOnset, sub_self]
    simp [h0]
  have hrel : releaseCheck cfg false (v : ℚ) v = false := by
    simp [releaseCheck]
  simp only [feed, hb, ht, hd, hprev, htouch, hrel, baselineUpdate_const,
    deltaUpdate_zero]

/-- Helper: unfolding one step of `feedSteps`. -/
lemma feedSteps_cons (cfg : CellConfig) (s : CellState) (v : ℤ) (vs : List ℤ) :
    feedSteps cfg s (v :: vs) = (feed cfg s v).2 :: feedSteps cfg (feedState cfg s v) vs := rfl

/-- Helper: a calm constant-history state fed the constant forever keeps
returning `(0, false)`. -/
lemma feedSteps_const (cfg : CellConfig) (v : ℤ) (hdip : 0 ≤ cfg.press_dip) :
    ∀ (m : ℕ) (s : CellState), s.baseline = some (v : ℚ) → s.delta = 0 →
      s.is_touched = false → (∀ x ∈ s.press_buf, x = v) →
      feedSteps cfg s (List.replicate m v) = List.replicate m ((0 : ℚ), false) := by
  intro m
  induction m with
  | zero => intro s _ _ _ _; simp [feedSteps]
  | succ k ih =>
    intro s hb hd ht hbuf
    rw [List.replicate_succ, feedSteps_cons, feed_const cfg v s hdip hb hd ht hbuf]
    have hbuf2 : ∀ x ∈ pushDeque cfg.window s.press_buf v, x = v := pushDeque_all hbuf
    rw [List.replicate_succ]
    simp only [feedState, feed_const cfg v s hdip hb hd ht hbuf]
    exact congrArg _ (ih _ rfl rfl rfl hbuf2)

/-- C8: a fresh NodeTracker fed the same constant raw value on every feed
call returns delta exactly `0.0` and `is_touched = false` on every sample
(for any configuration with a non-negative press-dip threshold). -/
theorem constant_input_stays_zero_untouched (cfg : CellConfig) (v : ℤ) (n : ℕ)
    (hdip : 0 ≤ cfg.press_dip) :
    feedSteps cfg CellState.reset (List.replicate n v) =
      List.replicate n ((0 : ℚ), false) := by
  cases n with
  | zero => simp [feedSteps]
  | succ m =>
    have hfirst : feed cfg CellState.reset v =
        ({ baseline := some (v : ℚ), delta := 0, is_touched := false,
           press_buf := pushDeque cfg.window [] v }, (0, false)) := by
      simp [feed, CellState.reset]
    rw [List.replicate_succ, feedSteps_cons, List.replicate_succ]
    rw [hfirst]
    simp only [feedState, hfirst]
    refine congrArg _ (feedSteps_const cfg v hdip m _ rfl rfl rfl ?_)
    exact pushDeque_all (by simp)

/-- Witness for C8: three constant samples under the default configuration
all return `(0, false)`. -/
theorem constant_input_stays_zero_untouched_witness :
    feedSteps {} CellState.reset (List.replicate 3 7) =
      List.replicate 3 ((0 : ℚ), false) :=
  constant_input_stays_zero_untouched {} 7 3 (by decide)

/-- Helper: clamping at zero yields a non-negative rational. -/
lemma clampNonneg (x : ℚ) : 0 ≤ if x < 0 then 0 else x := by
  split
  · exact le_refl 0
  · next h => exact le_of_not_lt h

/-- Helper: the delta written by `deltaUpdate` is never negative. -/
lemma deltaUpdate_nonneg (cfg : CellConfig) (t : Bool) (d b : ℚ) (v : ℤ) :
    0 ≤ deltaUpdate cfg t d b v := by
  unfold deltaUpdate
  exact clampNonneg _

/-- Helper: any feed call keeps the stored and returned delta non-negative,
given a non-negative delta at entry. -/
lemma feed_delta_nonneg (cfg : CellConfig) (s : CellState) (v : ℤ)
    (hd : 0 ≤ s.delta) :
    0 ≤ (feedState cfg s v).delta ∧ 0 ≤ (feed cfg s v).2.1 := by
  cases hbase : s.baseline with
  | none => simp only [feedState, feed, hbase]; exact ⟨hd, le_refl 0⟩
  | some b0 =>
    simp only [feedState, feed, hbase]
    exact ⟨deltaUpdate_nonneg _ _ _ _ _, deltaUpdate_nonneg _ _ _ _ _⟩

/-- C10: for every tracker state with a non-negative stored delta (an
invariant of every reachable state, as the second conjunct shows) and every
raw input, the delta returned by `feed` and the delta stored in the tracker
are both non-negative: the clamp applies in the touched and the untouched
branch alike. -/
theorem delta_clamped_nonneg :
    (∀ (cfg : CellConfig) (s : CellState) (v : ℤ), 0 ≤ s.delta →
        0 ≤ (feedState cfg s v).delta ∧ 0 ≤ (feed cfg s v).2.1)
    ∧ (∀ (cfg : CellConfig) (vs : List ℤ),
        0 ≤ (stateAfter cfg CellState.reset vs).delta) := by
  refine ⟨feed_delta_nonneg, ?_⟩
  intro cfg vs
  have h : ∀ (l : List ℤ) (s : CellState), 0 ≤ s.delta →
      0 ≤ (stateAfter cfg s l).delta := by
    intro l
    induction l with
    | nil => intro s hs; simpa [stateAfter] using hs
    | cons v tl ih =>
      intro s hs
      rw [stateAfter_cons]
      exact ih _ (feed_delta_nonneg cfg s v hs).1
  exact h vs CellState.reset (le_refl 0)

/-- Witness for C10: a concrete touched state with positive delta fed a
concrete value yields non-negative stored and returned deltas. -/
theorem delta_clamped_nonneg_witness :
    0 ≤ (feedState {}
        { baseline := some 1000, delta := 5, is_touched := true, press_buf := [] }
        100).delta ∧
    0 ≤ (feed {}
        { baseline := some 1000, delta := 5, is_touched := true, press_buf := [] }
        100).2.1 :=
  delta_clamped_nonneg.1 {}
    { baseline := some 1000, delta := 5, is_touched := true, press_buf := [] }
    100 (by norm_num)

end CapSense

namespace CapSense

/-- Helper: `rasterKeys` is the list product of the two index ranges. -/
lemma rasterKeys_eq_product (R C : ℕ) :
    rasterKeys R C = (List.range R) ×ˢ (List.range C) := rfl

/-- Helper: inserting a fresh key into a dict appends the pair at the end. -/
lemma dictInsert_of_not_mem {κ ν : Type} [DecidableEq κ] (k : κ) (v : ν)
    (d : List (κ × ν)) (h : k ∉ d.map Prod.fst) :
    dictInsert k v d = d ++ [(k, v)] := by
  induction d with
  | nil => rfl
  | cons e rest ih =>
    simp only [List.map_cons, List.mem_cons, not_or] at h
    unfold dictInsert
    rw [if_neg (fun he => h.1 he.symm), ih h.2]
    rfl

/-- Helper: a reader step whose in-progress buffer is still short of `total`
entries publishes nothing and only stores the sample. -/
lemma asmStep_no_publish (total : ℕ) (s : AsmState) (e : (ℕ × ℕ) × ℤ)
    (hlen : s.frame_buffer.length < total) :
    asmStep total s e = { s with frame_buffer := dictInsert e.1 e.2 s.frame_buffer } := by
  unfold asmStep
  rw [if_neg]
  rintro ⟨-, h2⟩
  omega

/-- Helper: one list step of `asmRun`. -/
lemma asmRun_cons (total : ℕ) (s : AsmState) (e : (ℕ × ℕ) × ℤ)
    (l : List ((ℕ × ℕ) × ℤ)) :
    asmRun total s (e :: l) = asmRun total (asmStep total s e) l := rfl

/-- Helper: feeding samples with fresh, pairwise-distinct keys that never
fill the buffer up to `total` publishes nothing and accumulates the samples
in order. -/
lemma asmRun_no_publish (total : ℕ) :
    ∀ (l : List ((ℕ × ℕ) × ℤ)) (s : AsmState),
      (s.frame_buffer.map Prod.fst ++ l.map Prod.fst).Nodup →
      s.frame_buffer.length + l.length ≤ total →
      asmRun total s l = { s with frame_buffer := s.frame_buffer ++ l } := by
  intro l
  induction l with
  | nil => intro s _ _; simp [asmRun]
  | cons e tl ih =>
    intro s hnd hlen
    have hlen1 : s.frame_buffer.length < total := by
      simp only [List.length_cons] at hlen
      omega
    have hkey : e.1 ∉ s.frame_buffer.map Prod.fst := by
      intro hmem
      simp only [List.map_cons] at hnd
      exact (List.nodup_append.mp hnd).2.2 hmem (List.mem_cons_self _ _)
    rw [asmRun_cons, asmStep_no_publish total s e hlen1,
        dictInsert_of_not_mem e.1 e.2 s.frame_buffer hkey]
    have hnd2 : ((s.frame_buffer ++ [e]).map Prod.fst ++ tl.map Prod.fst).Nodup := by
      simpa [List.append_assoc] using hnd
    have hlen2 : (s.frame_buffer ++ [e]).length + tl.length ≤ total := by
      simp only [List.length_append, List.length_cons, List.length_nil] at hlen ⊢
      omega
    rw [ih _ hnd2 hlen2]
    simp [List.append_assoc]

/-- Helper: the raster key list has pairwise-distinct keys. -/
lemma rasterKeys_nodup (R C : ℕ) : (rasterKeys R C).Nodup := by
  rw [rasterKeys_eq_product]
  exact (List.nodup_range R).product (List.nodup_range C)

/-- Helper: the raster key list has `R*C` entries. -/
lemma rasterKeys_length (R C : ℕ) : (rasterKeys R C).length = R * C := by
  rw [rasterKeys_eq_product, List.length_product, List.length_range, List.length_range]

/-- Helper: keys of the raster sample list. -/
lemma rasterSamples_keys (R C : ℕ) (f : ℕ × ℕ → ℤ) :
    (rasterSamples R C f).map Prod.fst = rasterKeys R C := by
  simp [rasterSamples, Function.comp_def]

/-- Helper: the raster sample list has `R*C` entries. -/
lemma rasterSamples_length (R C : ℕ) (f : ℕ × ℕ → ℤ) :
    (rasterSamples R C f).length = R * C := by
  simp [rasterSamples, rasterKeys_length]

/-- Helper: re-assigning the final entry of a dict to its current value
leaves the dict unchanged when the key heads no earlier entry. -/
lemma dictInsert_append_self {κ ν : Type} [DecidableEq κ] (k : κ) (v : ν)
    (d : List (κ × ν)) (h : k ∉ d.map Prod.fst) :
    dictInsert k v (d ++ [(k, v)]) = d ++ [(k, v)] := by
  induction d with
  | nil => simp [dictInsert]
  | cons x rest ih =>
    simp only [List.map_cons, List.mem_cons, not_or] at h
    simp only [List.cons_append]
    unfold dictInsert
    rw [if_neg (fun hx => h.1 hx.symm), ih h.2]

/-- Helper: a reader pass on a sample whose key is not `(0,0)` publishes
nothing and only stores the sample. -/
lemma asmStep_not_origin (total : ℕ) (s : AsmState) (e : (ℕ × ℕ) × ℤ)
    (h : e.1 ≠ ((0, 0) : ℕ × ℕ)) :
    asmStep total s e = { s with frame_buffer := dictInsert e.1 e.2 s.frame_buffer } := by
  unfold asmStep
  rw [if_neg]
  rintro ⟨h1, -⟩
  exact h h1

/-- Helper: one list step of `readerRun`. -/
lemma readerRun_cons (total : ℕ) (s : AsmState) (e : (ℕ × ℕ) × ℤ)
    (l : List ((ℕ × ℕ) × ℤ)) :
    readerRun total s (e :: l) = readerRun total (readerStep total s e) l := rfl

/-- Helper: a full two-pass reader step on a fresh key publishes nothing and
appends the sample once, provided the buffer stays short of `total` through
both passes (or the key is not `(0,0)`, which disarms the second check). -/
lemma readerStep_fresh (total : ℕ) (s : AsmState) (e : (ℕ × ℕ) × ℤ)
    (hlen1 : s.frame_buffer.length < total)
    (hkey : e.1 ∉ s.frame_buffer.map Prod.fst)
    (h2 : s.frame_buffer.length + 1 < total ∨ e.1 ≠ ((0, 0) : ℕ × ℕ)) :
    readerStep total s e = { s with frame_buffer := s.frame_buffer ++ [e] } := by
  unfold readerStep
  rw [asmStep_no_publish total s e hlen1,
      dictInsert_of_not_mem e.1 e.2 s.frame_buffer hkey]
  rcases h2 with h | h
  · rw [asmStep_no_publish total _ e (by simp only [List.length_append,
      List.length_cons, List.length_nil]; omega)]
    rw [dictInsert_append_self e.1 e.2 s.frame_buffer hkey]
  · rw [asmStep_not_origin total _ e h,
      dictInsert_append_self e.1 e.2 s.frame_buffer hkey]

/-- Helper: the two-pass reader run over fresh non-`(0,0)` keys that never
fill the buffer to `total` publishes nothing and accumulates the samples in
order. -/
lemma readerRun_fresh_no_origin (total : ℕ) :
    ∀ (l : List ((ℕ × ℕ) × ℤ)) (s : AsmState),
      (s.frame_buffer.map Prod.fst ++ l.map Prod.fst).Nodup →
      s.frame_buffer.length + l.length ≤ total →
      (∀ e ∈ l, e.1 ≠ ((0, 0) : ℕ × ℕ)) →
      readerRun total s l = { s with frame_buffer := s.frame_buffer ++ l } := by
  intro l
  induction l with
  | nil => intro s _ _ _; simp [readerRun]
  | cons e tl ih =>
    intro s hnd hlen horg
    have hlen1 : s.frame_buffer.length < total := by
      simp only [List.length_cons] at hlen
      omega
    have hkey : e.1 ∉ s.frame_buffer.map Prod.fst := by
      intro hmem
      simp only [List.map_cons] at hnd
      exact (List.nodup_append.mp hnd).2.2 hmem (List.mem_cons_self _ _)
    rw [readerRun_cons, readerStep_fresh total s e hlen1 hkey
        (Or.inr (horg e (List.mem_cons_self _ _)))]
    have hnd2 : ((s.frame_buffer ++ [e]).map Prod.fst ++ tl.map Prod.fst).Nodup := by
      simpa [List.append_assoc] using hnd
    have hlen2 : (s.frame_buffer ++ [e]).length + tl.length ≤ total := by
      simp only [List.length_append, List.length_cons, List.length_nil] at hlen ⊢
      omega
    rw [ih _ hnd2 hlen2 (fun x hx => horg x (List.mem_cons_of_mem _ hx))]
    simp [List.append_assoc]

/-- Helper: for a non-degenerate grid the raster key list starts with the
origin node `(0,0)`. -/
lemma rasterKeys_cons (R C : ℕ) (hR : 0 < R) (hC : 0 < C) :
    ∃ tl, rasterKeys R C = ((0, 0) : ℕ × ℕ) :: tl := by
  obtain ⟨r, rfl⟩ : ∃ r, R = r + 1 := ⟨R - 1, by omega⟩
  obtain ⟨c, rfl⟩ : ∃ c, C = c + 1 := ⟨C - 1, by omega⟩
  unfold rasterKeys
  rw [List.range_succ_eq_map, List.range_succ_eq_map]
  simp only [List.flatMap_cons, List.map_cons, List.cons_append]
  exact ⟨_, rfl⟩

/-- C4 amended: on any grid with more than one node, feeding exactly one
sample per node in raster order publishes nothing yet (both duplicated
publish passes of the reader loop included); the wraparound `(0,0)` sample
of the next scan then publishes exactly one frame holding all `R*C` entries
and starts frame 2 with just that wraparound sample.  On the degenerate 1×1
grid the duplicated second publish pass instead fires already on the first
`(0,0)` sample, as the last conjunct records. -/
theorem raster_scan_one_frame (R C : ℕ) (f : ℕ × ℕ → ℤ) (w : ℤ)
    (hn : 1 < R * C) :
    (readerRun (R * C) AsmState.init (rasterSamples R C f)).frames_completed = 0 ∧
    (readerRun (R * C) AsmState.init (rasterSamples R C f ++ [(((0, 0) : ℕ × ℕ), w)])) =
      { frame_buffer := [(((0, 0) : ℕ × ℕ), w)],
        completed := [rasterSamples R C f],
        frames_completed := 1 } ∧
    (rasterSamples R C f).length = R * C ∧
    (∀ r c : ℕ, r < R → c < C → ((r, c), f (r, c)) ∈ rasterSamples R C f) ∧
    (readerRun 1 AsmState.init [(((0, 0) : ℕ × ℕ), 9)]).frames_completed = 1 := by
  have hR : 0 < R := by
    rcases Nat.eq_zero_or_pos R with h | h
    · rw [h, Nat.zero_mul] at hn; omega
    · exact h
  have hC : 0 < C := by
    rcases Nat.eq_zero_or_pos C with h | h
    · rw [h, Nat.mul_zero] at hn; omega
    · exact h
  obtain ⟨tl, htl⟩ := rasterKeys_cons R C hR hC
  have hsamp : rasterSamples R C f =
      (((0, 0) : ℕ × ℕ), f (0, 0)) :: tl.map (fun k => (k, f k)) := by
    rw [rasterSamples, htl, List.map_cons]
  have hnodup : (((0, 0) : ℕ × ℕ) :: tl).Nodup := htl ▸ rasterKeys_nodup R C
  have h00 : ((0, 0) : ℕ × ℕ) ∉ tl := (List.nodup_cons.mp hnodup).1
  have hlen : tl.length + 1 = R * C := by
    have hh := rasterKeys_length R C
    rw [htl] at hh
    simpa using hh
  have hs1 : readerStep (R * C) AsmState.init (((0, 0) : ℕ × ℕ), f (0, 0)) =
      { frame_buffer := [(((0, 0) : ℕ × ℕ), f (0, 0))],
        completed := [], frames_completed := 0 } := by
    rw [readerStep_fresh (R * C) AsmState.init _
        (by simp [AsmState.init]; omega)
        (by simp [AsmState.init])
        (Or.inl (by simp [AsmState.init]; omega))]
    simp [AsmState.init]
  have hrest : readerRun (R * C)
      { frame_buffer := [(((0, 0) : ℕ × ℕ), f (0, 0))],
        completed := [], frames_completed := 0 }
      (tl.map (fun k => (k, f k))) =
      { frame_buffer := [(((0, 0) : ℕ × ℕ), f (0, 0))] ++ tl.map (fun k => (k, f k)),
        completed := [], frames_completed := 0 } := by
    apply readerRun_fresh_no_origin
    · simpa [Function.comp_def] using hnodup
    · simp only [List.length_cons, List.length_nil, List.length_map]
      omega
    · intro e he
      obtain ⟨k, hk, rfl⟩ := List.mem_map.mp he
      intro hke
      exact h00 (hke ▸ hk)
  have hrun : readerRun (R * C) AsmState.init (rasterSamples R C f) =
      { frame_buffer := rasterSamples R C f, completed := [], frames_completed := 0 } := by
    rw [hsamp, readerRun_cons, hs1, hrest]
    simp only [List.singleton_append]
  have hfin : readerStep (R * C)
      { frame_buffer := rasterSamples R C f, completed := [], frames_completed := 0 }
      (((0, 0) : ℕ × ℕ), w) =
      { frame_buffer := [(((0, 0) : ℕ × ℕ), w)],
        completed := [rasterSamples R C f],
        frames_completed := 1 } := by
    unfold readerStep
    have hstep1 : asmStep (R * C)
        { frame_buffer := rasterSamples R C f, completed := [], frames_completed := 0 }
        (((0, 0) : ℕ × ℕ), w) =
        { frame_buffer := [(((0, 0) : ℕ × ℕ), w)],
          completed := [rasterSamples R C f],
          frames_completed := 1 } := by
      unfold asmStep
      rw [if_pos ⟨rfl, by rw [rasterSamples_length]⟩]
      simp [pushDeque, dictInsert]
    rw [hstep1, asmStep_no_publish (R * C) _ _ (by simp; omega)]
    simp [dictInsert]
  refine ⟨?_, ?_, rasterSamples_length R C f, ?_, by decide⟩
  · rw [hrun]
  · rw [readerRun, List.foldl_append]
    rw [show (rasterSamples R C f).foldl (readerStep (R * C)) AsmState.init =
        readerRun (R * C) AsmState.init (rasterSamples R C f) from rfl, hrun]
    simp only [List.foldl_cons, List.foldl_nil]
    exact hfin
  · intro r c hr hc
    simp only [rasterSamples, List.mem_map]
    refine ⟨(r, c), ?_, rfl⟩
    rw [rasterKeys_eq_product]
    simp [List.mem_product, List.mem_range, hr, hc]

/-- Witness for C4 amended: the 1×4 instance — four raster samples publish
nothing even with both duplicated publish passes, and the 5th sample for
`(0,0)` publishes exactly one 4-entry frame and starts frame 2. -/
theorem raster_scan_one_frame_witness :
    (readerRun 4 AsmState.init (rasterSamples 1 4 (fun k => 10 + (k.2 : ℤ)))).frames_completed = 0 ∧
    (readerRun 4 AsmState.init
        (rasterSamples 1 4 (fun k => 10 + (k.2 : ℤ)) ++ [(((0, 0) : ℕ × ℕ), 14)])) =
      { frame_buffer := [(((0, 0) : ℕ × ℕ), 14)],
        completed := [rasterSamples 1 4 (fun k => 10 + (k.2 : ℤ))],
        frames_completed := 1 } ∧
    (rasterSamples 1 4 (fun k => 10 + (k.2 : ℤ))).length = 1 * 4 ∧
    (∀ r c : ℕ, r < 1 → c < 4 →
        ((r, c), 10 + (c : ℤ)) ∈ rasterSamples 1 4 (fun k => 10 + (k.2 : ℤ))) ∧
    (readerRun 1 AsmState.init [(((0, 0) : ℕ × ℕ), 9)]).frames_completed = 1 :=
  raster_scan_one_frame 1 4 (fun k => 10 + (k.2 : ℤ)) 14 (by decide)

/-- C4 counterexample: on a 1×4 grid, feeding exactly one sample per node in
raster order (through the full two-pass reader loop) publishes no frame at
all (not exactly one): publication waits for the wraparound `(0,0)`
sample. -/
theorem raster_scan_no_frame_yet :
    ¬ ((readerRun 4 AsmState.init
        [(((0, 0) : ℕ × ℕ), 10), (((0, 1) : ℕ × ℕ), 11),
         (((0, 2) : ℕ × ℕ), 12), (((0, 3) : ℕ × ℕ), 13)]).frames_completed = 1) ∧
    (readerRun 4 AsmState.init
        [(((0, 0) : ℕ × ℕ), 10), (((0, 1) : ℕ × ℕ), 11),
         (((0, 2) : ℕ × ℕ), 12), (((0, 3) : ℕ × ℕ), 13)]).completed = [] := by
  constructor
  · decide
  · decide

end CapSense

namespace CapSense

/-- Helper: a stream with no `(0,0)` sample never publishes. -/
lemma asmRun_no_origin (total : ℕ) :
    ∀ (l : List ((ℕ × ℕ) × ℤ)) (s : AsmState),
      (∀ e ∈ l, e.1 ≠ ((0, 0) : ℕ × ℕ)) →
      (asmRun total s l).completed = s.completed ∧
      (asmRun total s l).frames_completed = s.frames_completed := by
  intro l
  induction l with
  | nil => intro s _; exact ⟨rfl, rfl⟩
  | cons e tl ih =>
    intro s h
    rw [asmRun_cons, asmStep_not_origin total s e (h e (List.mem_cons_self _ _))]
    exact ih _ (fun x hx => h x (List.mem_cons_of_mem _ hx))

/-- Helper: a full two-pass reader step on a sample whose key is not
`(0,0)` publishes nothing in either pass. -/
lemma readerStep_not_origin (total : ℕ) (s : AsmState) (e : (ℕ × ℕ) × ℤ)
    (h : e.1 ≠ ((0, 0) : ℕ × ℕ)) :
    readerStep total s e =
      { s with frame_buffer := dictInsert e.1 e.2 (dictInsert e.1 e.2 s.frame_buffer) } := by
  unfold readerStep
  rw [asmStep_not_origin total s e h, asmStep_not_origin total _ e h]

/-- Helper: a stream with no `(0,0)` sample never publishes, through both
duplicated reader passes. -/
lemma readerRun_no_origin (total : ℕ) :
    ∀ (l : List ((ℕ × ℕ) × ℤ)) (s : AsmState),
      (∀ e ∈ l, e.1 ≠ ((0, 0) : ℕ × ℕ)) →
      (readerRun total s l).completed = s.completed ∧
      (readerRun total s l).frames_completed = s.frames_completed := by
  intro l
  induction l with
  | nil => intro s _; exact ⟨rfl, rfl⟩
  | cons e tl ih =>
    intro s h
    rw [readerRun_cons, readerStep_not_origin total s e (h e (List.mem_cons_self _ _))]
    exact ih _ (fun x hx => h x (List.mem_cons_of_mem _ hx))

/-- C7 amended: the assembler has no force-publish bound at all — a
completed frame is emitted only when a `(0,0)` sample arrives over a full
buffer, so any stream without a `(0,0)` sample publishes nothing, however
long, leaving the partial frame buffered; this holds for a single
publish-check pass and just the same for the full two-pass reader loop with
its duplicated publish block. -/
theorem no_force_publish (total : ℕ) (s : AsmState) (l : List ((ℕ × ℕ) × ℤ))
    (h : ∀ e ∈ l, e.1 ≠ ((0, 0) : ℕ × ℕ)) :
    ((asmRun total s l).completed = s.completed ∧
     (asmRun total s l).frames_completed = s.frames_completed) ∧
    ((readerRun total s l).completed = s.completed ∧
     (readerRun total s l).frames_completed = s.frames_completed) :=
  ⟨asmRun_no_origin total l s h, readerRun_no_origin total l s h⟩

/-- Witness for C7 amended: one sample for node `(0,1)` publishes nothing,
in the single-pass model and in the two-pass reader loop alike. -/
theorem no_force_publish_witness :
    ((asmRun 64 AsmState.init [(((0, 1) : ℕ × ℕ), 5)]).completed = AsmState.init.completed ∧
     (asmRun 64 AsmState.init [(((0, 1) : ℕ × ℕ), 5)]).frames_completed =
       AsmState.init.frames_completed) ∧
    ((readerRun 64 AsmState.init [(((0, 1) : ℕ × ℕ), 5)]).completed = AsmState.init.completed ∧
     (readerRun 64 AsmState.init [(((0, 1) : ℕ × ℕ), 5)]).frames_completed =
       AsmState.init.frames_completed) :=
  no_force_publish 64 AsmState.init [(((0, 1) : ℕ × ℕ), 5)] (by decide)

/-- Helper: the one-entry buffer for node `(0,1)` is a fixed point of the
reader step on further `(0,1)` samples. -/
lemma asmRun_rep_col1 (m : ℕ) :
    asmRun 64 { frame_buffer := [(((0, 1) : ℕ × ℕ), 5)], completed := [], frames_completed := 0 }
        (List.replicate m (((0, 1) : ℕ × ℕ), 5)) =
      { frame_buffer := [(((0, 1) : ℕ × ℕ), 5)], completed := [], frames_completed := 0 } := by
  induction m with
  | zero => rfl
  | succ k ih =>
    rw [List.replicate_succ, asmRun_cons]
    have hstep : asmStep 64
        { frame_buffer := [(((0, 1) : ℕ × ℕ), 5)], completed := [], frames_completed := 0 }
        (((0, 1) : ℕ × ℕ), 5) =
        { frame_buffer := [(((0, 1) : ℕ × ℕ), 5)], completed := [], frames_completed := 0 } := by
      decide
    rw [hstep]
    exact ih

/-- Helper: any positive number of `(0,1)` samples from the initial state
leaves exactly the one-entry partial buffer and publishes nothing. -/
lemma asmRun_rep_col1_from_init (n : ℕ) (h : 1 ≤ n) :
    asmRun 64 AsmState.init (List.replicate n (((0, 1) : ℕ × ℕ), 5)) =
      { frame_buffer := [(((0, 1) : ℕ × ℕ), 5)], completed := [], frames_completed := 0 } := by
  obtain ⟨m, rfl⟩ : ∃ m, n = m + 1 := ⟨n - 1, by omega⟩
  rw [List.replicate_succ, asmRun_cons]
  have hstep : asmStep 64 AsmState.init (((0, 1) : ℕ × ℕ), 5) =
      { frame_buffer := [(((0, 1) : ℕ × ℕ), 5)], completed := [], frames_completed := 0 } := by
    decide
  rw [hstep]
  exact asmRun_rep_col1 m

/-- Helper: the one-entry buffer for node `(0,1)` is also a fixed point of
the full two-pass reader step on further `(0,1)` samples. -/
lemma readerRun_rep_col1 (m : ℕ) :
    readerRun 64 { frame_buffer := [(((0, 1) : ℕ × ℕ), 5)], completed := [], frames_completed := 0 }
        (List.replicate m (((0, 1) : ℕ × ℕ), 5)) =
      { frame_buffer := [(((0, 1) : ℕ × ℕ), 5)], completed := [], frames_completed := 0 } := by
  induction m with
  | zero => rfl
  | succ k ih =>
    rw [List.replicate_succ, readerRun_cons]
    have hstep : readerStep 64
        { frame_buffer := [(((0, 1) : ℕ × ℕ), 5)], completed := [], frames_completed := 0 }
        (((0, 1) : ℕ × ℕ), 5) =
        { frame_buffer := [(((0, 1) : ℕ × ℕ), 5)], completed := [], frames_completed := 0 } := by
      decide
    rw [hstep]
    exact ih

/-- Helper: any positive number of `(0,1)` samples processed by the full
two-pass reader loop from the initial state leaves exactly the one-entry
partial buffer and publishes nothing. -/
lemma readerRun_rep_col1_from_init (n : ℕ) (h : 1 ≤ n) :
    readerRun 64 AsmState.init (List.replicate n (((0, 1) : ℕ × ℕ), 5)) =
      { frame_buffer := [(((0, 1) : ℕ × ℕ), 5)], completed := [], frames_completed := 0 } := by
  obtain ⟨m, rfl⟩ : ∃ m, n = m + 1 := ⟨n - 1, by omega⟩
  rw [List.replicate_succ, readerRun_cons]
  have hstep : readerStep 64 AsmState.init (((0, 1) : ℕ × ℕ), 5) =
      { frame_buffer := [(((0, 1) : ℕ × ℕ), 5)], completed := [], frames_completed := 0 } := by
    decide
  rw [hstep]
  exact readerRun_rep_col1 m

/-- C7 counterexample: no maximum sample count exists after which a partial
frame is force-published — for every candidate bound there is a longer
stream (samples for node `(0,1)` only) after which the partial frame is
still buffered and nothing has been published, in the single-pass model and
in the full two-pass reader loop alike. -/
theorem no_buffer_bound_cex :
    (¬ ∃ N : ℕ, ∀ n, N ≤ n →
      (1 ≤ (asmRun 64 AsmState.init (List.replicate n (((0, 1) : ℕ × ℕ), 5))).frames_completed ∨
       (asmRun 64 AsmState.init (List.replicate n (((0, 1) : ℕ × ℕ), 5))).frame_buffer = [])) ∧
    (¬ ∃ N : ℕ, ∀ n, N ≤ n →
      (1 ≤ (readerRun 64 AsmState.init (List.replicate n (((0, 1) : ℕ × ℕ), 5))).frames_completed ∨
       (readerRun 64 AsmState.init (List.replicate n (((0, 1) : ℕ × ℕ), 5))).frame_buffer = [])) := by
  constructor
  · rintro ⟨N, h⟩
    have h2 := h (N + 1) (by omega)
    rw [asmRun_rep_col1_from_init (N + 1) (by omega)] at h2
    revert h2
    decide
  · rintro ⟨N, h⟩
    have h2 := h (N + 1) (by omega)
    rw [readerRun_rep_col1_from_init (N + 1) (by omega)] at h2
    revert h2
    decide

/-- Five constant frames whose per-node mean and median differ, used to
separate `establish_baseline` from a median computation. -/
def cexHistory : List (ℕ → ℕ → ℚ) := ([100, 100, 100, 100, 200] : List ℚ).map (fun v _ _ => v)

/-- The Scenario B calibration history: every node of the grid reports
`[100, 102, 98, 101, 99]` across the five calibration frames. -/
def scenarioBHistory : List (ℕ → ℕ → ℚ) := ([100, 102, 98, 101, 99] : List ℚ).map (fun v _ _ => v)

/-- C3 counterexample: `establish_baseline` sets `C0` to the mean, not the
median, of the accumulated samples — on the history `[100,100,100,100,200]`
it yields `120` while the median is `100`. -/
theorem calibrator_mean_not_median_cex :
    establishBaselineC0 cexHistory 0 0 = 120 ∧
    npMedian [100, 100, 100, 100, 200] = 100 ∧
    establishBaselineC0 cexHistory 0 0 ≠ npMedian [100, 100, 100, 100, 200] := by
  refine ⟨?_, ?_, ?_⟩ <;>
    norm_num [establishBaselineC0, cexHistory, npMedian, sortAsc, insertSorted]

/-- C3 amended: the column calibrator of `adaptive4read2.py` takes the
median of its accumulated samples while `establish_baseline` takes the mean;
on the Scenario B samples `[100,102,98,101,99]` both equal `100`, so every
node of the grid gets `C0 = 100`. -/
theorem calibration_scenarioB :
    (∀ r c : ℕ, establishBaselineC0 scenarioBHistory r c = 100) ∧
    colIdle [100, 102, 98, 101, 99] = 100 := by
  constructor
  · intro r c
    norm_num [establishBaselineC0, scenarioBHistory]
  · norm_num [colIdle, npMedian, sortAsc, insertSorted]

/-- C9: for a ready, non-empty baseline table, the normalizer outputs `0.0`
for a node whose `C0` is non-positive and `(C_current - C0) / C0` otherwise:
the division is only ever taken with a positive `C0`. -/
theorem delta_normalizer_guard :
    ∀ (table : List ((ℕ × ℕ) × ℚ)) (frame : ℕ → ℕ → ℚ) (r c : ℕ) (v : ℚ),
      table ≠ [] → table.lookup (r, c) = some v →
      ((v ≤ 0 → computeDeltaCNormalized true table frame r c = 0) ∧
       (0 < v → computeDeltaCNormalized true table frame r c = (frame r c - v) / v)) := by
  intro table frame r c v hne hlook
  unfold computeDeltaCNormalized
  have hcond : ¬ (true = false ∨ table.length = 0) := by
    simp [List.length_eq_zero, hne]
  rw [if_neg hcond]
  simp only [hlook, Option.getD_some]
  constructor
  · intro hv
    rw [if_neg (not_lt.mpr hv)]
  · intro hv
    rw [if_pos hv]

/-- Witness for C9: a concrete table with one non-positive and one positive
`C0` produces `0` and the normalized delta respectively. -/
theorem delta_normalizer_guard_witness :
    computeDeltaCNormalized true [(((0, 0) : ℕ × ℕ), -1), (((0, 1) : ℕ × ℕ), 2)]
        (fun _ _ => 3) 0 0 = 0 ∧
    computeDeltaCNormalized true [(((0, 0) : ℕ × ℕ), -1), (((0, 1) : ℕ × ℕ), 2)]
        (fun _ _ => 3) 0 1 = (3 - 2) / 2 := by
  constructor
  · exact (delta_normalizer_guard [(((0, 0) : ℕ × ℕ), -1), (((0, 1) : ℕ × ℕ), 2)]
      (fun _ _ => 3) 0 0 (-1) (by simp) rfl).1 (by norm_num)
  · exact (delta_normalizer_guard [(((0, 0) : ℕ × ℕ), -1), (((0, 1) : ℕ × ℕ), 2)]
      (fun _ _ => 3) 0 1 2 (by simp) rfl).2 (by norm_num)

end CapSense

namespace CapSense

/-- C5 counterexample: at a concrete full bounded queue the push is rejected
and the sample dropped, yet the reader statistics after the drop are
identical to the statistics after an accepted push — no lost-sample counter
is incremented or exposed (the drop handler only prints a warning). -/
theorem queue_full_drop_invisible_cex :
    (putTimeout 1 [(((0 : ℚ), 0, 0, (5 : ℤ)) : ℚ × ℕ × ℕ × ℤ)]
        (((1 : ℚ), 0, 1, (6 : ℤ)) : ℚ × ℕ × ℕ × ℤ)).2 = false ∧
    recordAfterPut { samples_received := 0, frames_completed := 0, invalid_samples := 0 } false =
      recordAfterPut { samples_received := 0, frames_completed := 0, invalid_samples := 0 } true := by
  exact ⟨rfl, rfl⟩

/-- C5 amended: the CSV push is the bounded-timeout `put` which, on a full
bounded queue, drops the sample leaving the queue unchanged; the reader
statistics do not depend on whether the push was accepted (no lost-sample
counter); and the queue as constructed (`queue.Queue()`, unbounded) accepts
every push, so the reader is never blocked by a full queue. -/
theorem queue_full_drop_policy :
    (∀ (q : List (ℚ × ℕ × ℕ × ℤ)) (x : ℚ × ℕ × ℕ × ℤ),
        (putTimeout 0 q x).2 = true) ∧
    (∀ (m : ℕ) (q : List (ℚ × ℕ × ℕ × ℤ)) (x : ℚ × ℕ × ℕ × ℤ),
        0 < m → m ≤ q.length → putTimeout m q x = (q, false)) ∧
    (∀ (st : ReaderStats) (b1 b2 : Bool), recordAfterPut st b1 = recordAfterPut st b2) := by
  refine ⟨?_, ?_, ?_⟩
  · intro q x
    simp [putTimeout]
  · intro m q x hm hq
    unfold putTimeout
    rw [if_neg]
    rintro (h | h) <;> omega
  · intro st b1 b2
    rfl

/-- Witness for C5 amended: a concrete full queue of capacity 1 rejects the
push and keeps its single element. -/
theorem queue_full_drop_policy_witness :
    putTimeout 1 [(((0 : ℚ), 0, 0, (5 : ℤ)) : ℚ × ℕ × ℕ × ℤ)]
        (((1 : ℚ), 0, 1, (6 : ℤ)) : ℚ × ℕ × ℕ × ℤ) =
      ([(((0 : ℚ), 0, 0, (5 : ℤ)) : ℚ × ℕ × ℕ × ℤ)], false) :=
  queue_full_drop_policy.2.1 1 [(((0 : ℚ), 0, 0, (5 : ℤ)) : ℚ × ℕ × ℕ × ℤ)]
    (((1 : ℚ), 0, 1, (6 : ℤ)) : ℚ × ℕ × ℕ × ℤ) (by omega) (by simp)

/-- C6: on the same out-of-range index `(5,0)` of a declared 4×4 grid, the
`grid_manager4x4.py` variant raises (its lazy-create branch assigns to the
non-existent attribute `self.cells`), while the `NOVA_pipeline` variant
lazily creates a tracker for the unseen key, routes the sample to it, and
returns normally. -/
theorem grid_router_out_of_range :
    feed4x4 (GridState.init 4 4 {}) 5 0 100 =
      Except.error "AttributeError: no attribute cells" ∧
    (feedNova (GridState.init 4 4 {}) 5 0 100).2 = ((0 : ℚ), false) ∧
    ((feedNova (GridState.init 4 4 {}) 5 0 100).1.cells.lookup ((5 : ℤ), (0 : ℤ))).isSome =
      true := by
  exact ⟨rfl, rfl, rfl⟩

end CapSense
